import Mathlib

/-!
Verification development for the agensgraph-golang path/entity decoder.

The decoder's source consists of `ScanEntity`/`saveEntityData` (entity.go)
and `ScanPath`/`readPath`/`BasicPath.SavePath` (the path scanner file).
Those functions are embedded below as executable Lean definitions over
`List Char` buffers.  The per-kind element lexers (`readVertexElement`,
`readEdgeElement`) and the sentinel constant `nullElementValue` live in a
source file that is not part of this tree; they are modelled from the
specification's grammar and are marked as such in their doc comments.

Ghost instrumentation: the embedded functions additionally return a trace
of the consumer calls (`SaveEntity` / `SaveProperties` / `json.Unmarshal` /
`SavePath`) and of the element-lexer invocations (position and expected
kind), so that delivery-order and alternation properties can be stated.
-/

/-- Modelled from the spec: the composite entity identifier
`"<catalog>.<local>"` (spec section 4.1); the defining source file is
absent from this tree. -/
structure GraphId where
  catalog : Nat
  localId : Nat
deriving DecidableEq, Repr

/-- Modelled from the spec: vertex metadata `{Id, Label}` (spec section 3). -/
structure VertexCore where
  id : GraphId
  label : List Char
deriving DecidableEq, Repr

/-- Modelled from the spec: edge metadata `{Id, Label, Start, End}`
(spec section 3). -/
structure EdgeCore where
  id : GraphId
  label : List Char
  start : GraphId
  stop : GraphId
deriving DecidableEq, Repr

/-- The dynamic value stored in `entityData.core` (Go `interface{}`,
holding a `VertexCore` or an `EdgeCore`). -/
inductive EntityCore
  | vertex (c : VertexCore)
  | edge (c : EdgeCore)
deriving DecidableEq, Repr

/-- `entityData` from entity.go: entity metadata plus the raw property
bytes (a view of the input buffer). -/
structure EntityData where
  core : EntityCore
  properties : List Char
deriving DecidableEq, Repr

/-- An element of the `ds []interface{}` slice built by `readPath`:
either the untyped nil interface value, or an interface holding a
`*entityData` pointer (which, as a Go pointer, may itself be nil -
`none` - even though `readPath` never stores that shape). -/
inductive PathElem
  | nilInterface
  | entityPtr (p : Option EntityData)
deriving DecidableEq, Repr

/-- Which element lexer a path position expects (ghost data used by the
instrumentation; the Go code carries the two lexer functions in the
`read, readNext` local variables). -/
inductive LexKind
  | vertex
  | edge
deriving DecidableEq, Repr

/-- Errors raised by the element lexers (spec section 4.3:
`MalformedEntityLiteral`, propagated `TruncatedValue`). -/
inductive LexErr
  | malformedEntity
  | truncatedValue
deriving DecidableEq, Repr

/-- Modelled from the spec: the null sentinel literal `"NULL"`
(spec section 6, `null_lit`); the constant is declared in a source file
absent from this tree. -/
def nullElementValue : List Char := ['N', 'U', 'L', 'L']

/-- Whitespace test used by the label rule (spec section 6: a label is a
run of bytes excluding whitespace and the opening bracket). -/
def isWSChar (c : Char) : Bool :=
  (c == ' ') || (c == '\t') || (c == '\n') || (c == '\r')

/-- The label of an entity literal: the longest prefix of bytes that are
neither whitespace nor the opening bracket. -/
def takeLabel (b : List Char) : List Char :=
  b.takeWhile (fun c => (c != '[') && !(isWSChar c))

/-- Base-10 value of a digit run. -/
def digitsVal (l : List Char) : Nat :=
  l.foldl (fun n c => n * 10 + (c.toNat - 48)) 0

/-- Modelled from the spec: parse `digits "." digits` at the head of the
buffer (spec section 4.1), returning the identifier and the number of
bytes consumed. -/
def parseGraphId (b : List Char) : Option (GraphId × Nat) :=
  let d1 := b.takeWhile Char.isDigit
  if d1.length = 0 then none
  else
    match b.drop d1.length with
    | '.' :: r2 =>
      let d2 := r2.takeWhile Char.isDigit
      if d2.length = 0 then none
      else some (⟨digitsVal d1, digitsVal d2⟩, d1.length + 1 + d2.length)
    | _ => none

/-- Modelled from the spec: the bracket-depth phase of the JSON value
extent scanner (spec section 4.2), with the in-string flag and the
escape flag; `n` counts bytes already consumed. -/
def jsonBr : List Char → Nat → Bool → Bool → Nat → Option Nat
  | [], _, _, _, _ => none
  | c :: rest, depth, inStr, esc, n =>
    if inStr then
      if esc then jsonBr rest depth true false (n + 1)
      else if c = '\\' then jsonBr rest depth true true (n + 1)
      else if c = '"' then jsonBr rest depth false false (n + 1)
      else jsonBr rest depth true false (n + 1)
    else if c = '"' then jsonBr rest depth true false (n + 1)
    else if c = '{' || c = '[' then jsonBr rest (depth + 1) false false (n + 1)
    else if c = '}' || c = ']' then
      if depth = 1 then some (n + 1)
      else jsonBr rest (depth - 1) false false (n + 1)
    else jsonBr rest depth false false (n + 1)

/-- Modelled from the spec: scan the remainder of a JSON string value
whose opening quote has been consumed (`n` bytes so far), honoring
backslash escapes (spec section 4.2). -/
def jsonStr : List Char → Nat → Option Nat
  | [], _ => none
  | '\\' :: [], _ => none
  | '\\' :: _ :: rest, n => jsonStr rest (n + 2)
  | '"' :: _, n => some (n + 1)
  | _ :: rest, n => jsonStr rest (n + 1)

/-- Length of a bare JSON scalar token: bytes up to the first byte that
cannot continue the token (spec section 4.2, case (c)). -/
def jsonBare (b : List Char) : Nat :=
  (b.takeWhile (fun c => !(isWSChar c) && (c != ',') && (c != '}') && (c != ']'))).length

/-- Modelled from the spec: the JSON value extent scanner
(ValueExtentScanner, spec section 4.2): number of bytes occupied by the
JSON value starting at the head of the buffer. -/
def jsonExtent (b : List Char) : Option Nat :=
  match b with
  | [] => none
  | c :: rest =>
    if c = '{' || c = '[' then jsonBr rest 1 false false 1
    else if c = '"' then jsonStr rest 1
    else
      let m := jsonBare b
      if m = 0 then none else some m

/-- Modelled from the spec: `readVertexElement` (spec sections 4.3 and 6:
`vertex_lit := label "[" identifier "]" json_value`, or the null
sentinel).  Returns `(bytesConsumed, entity-data-or-nil, error)`;
on failure it returns `(0, none, some e)`. -/
def readVertexElement (b : List Char) : Nat × Option EntityData × Option LexErr :=
  if nullElementValue.isPrefixOf b then (nullElementValue.length, none, none)
  else
    let lab := takeLabel b
    if lab.length = 0 then (0, none, some .malformedEntity)
    else
      match b.drop lab.length with
      | '[' :: r2 =>
        match parseGraphId r2 with
        | some (gid, m) =>
          match r2.drop m with
          | ']' :: r4 =>
            match jsonExtent r4 with
            | some mj =>
              (lab.length + 1 + m + 1 + mj,
               some ⟨.vertex ⟨gid, lab⟩, r4.take mj⟩, none)
            | none => (0, none, some .truncatedValue)
          | _ => (0, none, some .malformedEntity)
        | none => (0, none, some .malformedEntity)
      | _ => (0, none, some .malformedEntity)

/-- Modelled from the spec: `readEdgeElement` (spec sections 4.3 and 6:
`edge_lit := label "[" identifier "]" "[" identifier "," identifier "]"
json_value`, or the null sentinel). On failure it returns
`(0, none, some e)`. -/
def readEdgeElement (b : List Char) : Nat × Option EntityData × Option LexErr :=
  if nullElementValue.isPrefixOf b then (nullElementValue.length, none, none)
  else
    let lab := takeLabel b
    if lab.length = 0 then (0, none, some .malformedEntity)
    else
      match b.drop lab.length with
      | '[' :: r2 =>
        match parseGraphId r2 with
        | some (gid, m) =>
          match r2.drop m with
          | ']' :: '[' :: r4 =>
            match parseGraphId r4 with
            | some (gs, ms) =>
              match r4.drop ms with
              | ',' :: r5 =>
                match parseGraphId r5 with
                | some (ge, me) =>
                  match r5.drop me with
                  | ']' :: r6 =>
                    match jsonExtent r6 with
                    | some mj =>
                      (lab.length + 1 + m + 2 + ms + 1 + me + 1 + mj,
                       some ⟨.edge ⟨gid, lab, gs, ge⟩, r6.take mj⟩, none)
                    | none => (0, none, some .truncatedValue)
                  | _ => (0, none, some .malformedEntity)
                | none => (0, none, some .malformedEntity)
              | _ => (0, none, some .malformedEntity)
            | none => (0, none, some .malformedEntity)
          | _ => (0, none, some .malformedEntity)
        | none => (0, none, some .malformedEntity)
      | _ => (0, none, some .malformedEntity)

/-- A lexer as carried by the `read, readNext` local variables of
`readPath`, paired with its ghost kind tag. -/
structure PathLexer where
  kind : LexKind
  fn : List Char → Nat × Option EntityData × Option LexErr

/-- Errors produced by `readPath` (Go `error` values built with
`fmt.Errorf` / `errors.New`; only their identity matters here). -/
inductive PathErr
  | badPathRepr
  | invalidPathElement (e : Option LexErr)
deriving DecidableEq, Repr

/-- Result of `readPath` and of its loop: a normal return carrying
`(advance, ds)` plus the ghost lexer-invocation trace, an error return,
a Go runtime panic from an out-of-range index `b[advance]`, or fuel
exhaustion of the embedding (never reached with the fuel `readPath`
supplies). -/
inductive PathLoopRes
  | ok (advance : Nat) (ds : List PathElem) (tr : List (Nat × LexKind))
  | errRes (e : PathErr) (tr : List (Nat × LexKind))
  | panicOOB (tr : List (Nat × LexKind))
  | fuelOut
deriving DecidableEq, Repr

/-- How `readPath` appends a freshly lexed element to `ds`: a nil
`*entityData` is appended as the untyped nil interface value, a non-nil
pointer as itself (`if d == nil { ds = append(ds, nil) } else
{ ds = append(ds, d) }`). -/
def pathElemOf : Option EntityData → PathElem
  | none => .nilInterface
  | some dd => .entityPtr (some dd)

/-- The `for b[advance] != byte(']')` loop of `readPath`.  `rest` is the
suffix `b[advance:]`; `errAcc` is the enclosing `err` named return,
which is nil (`none`) whenever the loop runs - the loop body tests
`err` (this accumulator) rather than the fresh lexer error `r`, so the
`errRes` branch below is dead code, faithfully to the source. -/
def pathLoop (rv re : PathLexer) (rest : List Char) (advance : Nat)
    (ds : List PathElem) (tr : List (Nat × LexKind)) (errAcc : Option PathErr) :
    Nat → PathLoopRes
  | 0 => .fuelOut
  | fuel + 1 =>
    match rest with
    | [] => .panicOOB tr
    | c :: rest2 =>
      if c = ']' then .ok (advance + 1) ds tr
      else
        -- `if len(ds) > 0 { advance++ }` : skip the separator byte
        let rest1 := if ds.isEmpty then c :: rest2 else rest2
        let adv1 := if ds.isEmpty then advance else advance + 1
        match errAcc with
        | some _ => .errRes (.invalidPathElement (rv.fn rest1).2.2) tr
        | none =>
          pathLoop re rv (rest1.drop (rv.fn rest1).1) (adv1 + (rv.fn rest1).1)
            (ds ++ [pathElemOf (rv.fn rest1).2.1]) (tr ++ [(adv1, rv.kind)]) none fuel

/-- The vertex-position lexer, as installed by
`read, readNext := readVertexElement, readEdgeElement`. -/
def vertexLexer : PathLexer := ⟨.vertex, readVertexElement⟩

/-- The edge-position lexer. -/
def edgeLexer : PathLexer := ⟨.edge, readEdgeElement⟩

/-- `readPath` from the path scanner source: recognize the null sentinel
prefix, else require `[` and run the element loop. -/
def readPath (b : List Char) : PathLoopRes :=
  if nullElementValue.isPrefixOf b then .ok nullElementValue.length [] []
  else
    match b with
    | [] => .panicOOB []
    | c :: rest =>
      if c = '[' then pathLoop vertexLexer edgeLexer rest 1 [] [] none (b.length + 2)
      else .errRes .badPathRepr []

/-- The `src interface{}` argument of `ScanPath`: untyped nil, a byte
buffer, or a value of any other dynamic type. -/
inductive PathSrc
  | null
  | bytes (b : List Char)
  | other
deriving DecidableEq, Repr

/-- The error value `ScanPath` returns: one of its own `fmt.Errorf`
errors, a `readPath` error, or whatever the consumer's `SavePath`
returned. -/
inductive ScanErr (E : Type)
  | invalidSourceType
  | invalidSourceEmpty
  | pathErr (e : PathErr)
  | badRepr
  | fromSaver (e : E)
deriving DecidableEq, Repr

/-- Observable events of a `ScanPath` call: an element-lexer invocation
(ghost, lifted from the `readPath` trace) or a `SavePath` delivery with
its arguments. -/
inductive PathEv
  | lex (pos : Nat) (k : LexKind)
  | savePath (valid : Bool) (ds : List PathElem)
deriving DecidableEq, Repr

/-- How a Go call ends: a normal return carrying a possibly-nil error,
a runtime panic, or fuel exhaustion of the embedding. -/
inductive GoRes (ε : Type)
  | ret (e : Option ε)
  | panicked
  | fuelOut
deriving DecidableEq, Repr

/-- `ScanPath` from the path scanner source, instrumented with the list
of events it performs.  `saver` is the consumer's `SavePath` method
(returning `none` for a nil error).  A nil `ds` slice and an empty one
are both modelled as `[]`. -/
def ScanPath {E : Type} (src : PathSrc) (saver : Bool → List PathElem → Option E) :
    List PathEv × GoRes (ScanErr E) :=
  match src with
  | .null => ([.savePath false []], .ret ((saver false []).map .fromSaver))
  | .other => ([], .ret (some .invalidSourceType))
  | .bytes b =>
    if b.length < 1 then ([], .ret (some .invalidSourceEmpty))
    else
      match readPath b with
      | .errRes e tr => (tr.map (fun p => .lex p.1 p.2), .ret (some (.pathErr e)))
      | .panicOOB tr => (tr.map (fun p => .lex p.1 p.2), .panicked)
      | .fuelOut => ([], .fuelOut)
      | .ok a ds tr =>
        if a ≠ b.length then (tr.map (fun p => .lex p.1 p.2), .ret (some .badRepr))
        else (tr.map (fun p => .lex p.1 p.2) ++ [.savePath true ds],
              .ret ((saver true ds).map .fromSaver))

/-- The `src interface{}` argument of `ScanEntity`: untyped nil, a byte
buffer, a `*entityData` (possibly a nil pointer), or a value of any
other dynamic type. -/
inductive EntitySrc
  | null
  | bytes (b : List Char)
  | entityPtr (p : Option EntityData)
  | other
deriving DecidableEq, Repr

/-- View a path element as the `interface{}` value handed back to
`ScanEntity` when the caller re-submits it. -/
def PathElem.toSrc : PathElem → EntitySrc
  | .nilInterface => .null
  | .entityPtr p => .entityPtr p

/-- The error value `ScanEntity` returns: one of its own `fmt.Errorf`
errors, or an error handed up from the consumer's methods (its
`readEntity`, `SaveEntity`, `SaveProperties`, or the structural
`json.Unmarshal`). -/
inductive EScanErr (E : Type)
  | invalidSourceEmpty
  | invalidSourceType
  | fromConsumer (e : E)
deriving DecidableEq, Repr

/-- How a `ScanEntity` / `saveEntityData` call ends: a normal return
carrying a possibly-nil error, or the `panic("invalid entity data: nil")`
in `saveEntityData`. -/
inductive ERes (E : Type)
  | ret (e : Option (EScanErr E))
  | panicNilData
deriving DecidableEq, Repr

/-- Observable events of a `ScanEntity` call. -/
inductive EEv
  | readEntityEv (b : List Char)
  | saveEntityEv (valid : Bool) (core : Option EntityCore)
  | savePropsEv (b : List Char)
  | unmarshalEv (b : List Char)
deriving DecidableEq, Repr

/-- A caller record type as `ScanEntity` sees it: its `readEntity`
literal-reading method (whose body lives in a source file absent from
this tree, so it is kept abstract), its `SaveEntity` method, its
optional `SaveProperties` method (`some` exactly when the type
implements `PropertiesSaver`), and the structural `json.Unmarshal` of
the property bytes into the record (the default path).  Every method
returns `none` for a nil error. -/
structure EntityConsumer (E : Type) where
  readEntity : List Char → Option EntityData × Option E
  saveEntity : Bool → Option EntityCore → Option E
  saveProperties : Option (List Char → Option E)
  unmarshal : List Char → Option E

/-- `saveEntityData` from entity.go, instrumented with the list of
consumer calls it performs. -/
def saveEntityData {E : Type} (d : Option EntityData) (c : EntityConsumer E) :
    List EEv × ERes E :=
  match d with
  | none => ([], .panicNilData)
  | some dd =>
    match c.saveEntity true (some dd.core) with
    | some e => ([.saveEntityEv true (some dd.core)], .ret (some (.fromConsumer e)))
    | none =>
      match c.saveProperties with
      | some f =>
        ([.saveEntityEv true (some dd.core), .savePropsEv dd.properties],
         .ret ((f dd.properties).map .fromConsumer))
      | none =>
        ([.saveEntityEv true (some dd.core), .unmarshalEv dd.properties],
         .ret ((c.unmarshal dd.properties).map .fromConsumer))

/-- `ScanEntity` from entity.go, instrumented with the list of consumer
calls it performs. -/
def ScanEntity {E : Type} (src : EntitySrc) (c : EntityConsumer E) :
    List EEv × ERes E :=
  match src with
  | .bytes b =>
    if b.length < 1 then ([], .ret (some .invalidSourceEmpty))
    else
      match c.readEntity b with
      | (_, some e) => ([.readEntityEv b], .ret (some (.fromConsumer e)))
      | (d, none) =>
        ((.readEntityEv b) :: (saveEntityData d c).1, (saveEntityData d c).2)
  | .entityPtr p => saveEntityData p c
  | .null => ([.saveEntityEv false none], .ret ((c.saveEntity false none).map .fromConsumer))
  | .other => ([], .ret (some .invalidSourceType))

/-- How a `BasicPath.SavePath` call ends: a normal return carrying a
possibly-nil error, or a Go runtime panic from an out-of-range `ds`
index. -/
inductive BasicSaveRes (E : Type)
  | ret (e : Option E)
  | panicIdx
deriving DecidableEq, Repr

/-- The `for i < ne` loop of `BasicPath.SavePath`, reading `ds[j]` and
`ds[j+1]` per round; the fuel argument is `ne - i`.  At fuel 0 the
source performs the final `p.Vertices[i].Scan(ds[j])` and discards its
error (the scanned record itself is caller state and is not tracked
here). -/
def bpLoop {E : Type} (scanV scanE : PathElem → Option E) (ds : List PathElem) :
    Nat → Nat → BasicSaveRes E
  | j, 0 =>
    match ds.get? j with
    | none => .panicIdx
    | some _ => .ret none
  | j, k + 1 =>
    match ds.get? j, ds.get? (j + 1) with
    | some d1, some d2 =>
      (match scanV d1 with
       | some e => .ret (some e)
       | none =>
         match scanE d2 with
         | some e => .ret (some e)
         | none => bpLoop scanV scanE ds (j + 2) k)
    | _, _ => .panicIdx

/-- `BasicPath.SavePath` from the path scanner source, parameterized by
the element scans `BasicVertex.Scan` / `BasicEdge.Scan` (their record
types live in a source file absent from this tree). -/
def basicSavePath {E : Type} (scanV scanE : PathElem → Option E)
    (valid : Bool) (ds : List PathElem) : BasicSaveRes E :=
  if !valid then .ret none
  else if ds.length < 1 then .ret none
  else bpLoop scanV scanE ds 0 (ds.length / 2)

/-- Concrete inputs used by witnesses and counterexamples. -/
def singleVertexPath : List Char := ['[', 'v', '[', '1', '.', '1', ']', '{', '}', ']']

/-- A three-element path literal with comma separators,
`[v[1.1]{},e[1.1][1.1,1.2]{},v[1.2]{}]`. -/
def commaPath : List Char :=
  ['[', 'v', '[', '1', '.', '1', ']', '{', '}', ',',
   'e', '[', '1', '.', '1', ']', '[', '1', '.', '1', ',', '1', '.', '2', ']', '{', '}', ',',
   'v', '[', '1', '.', '2', ']', '{', '}', ']']

/-- The same path literal with the first separator replaced by `;`. -/
def semiPath : List Char :=
  ['[', 'v', '[', '1', '.', '1', ']', '{', '}', ';',
   'e', '[', '1', '.', '1', ']', '[', '1', '.', '1', ',', '1', '.', '2', ']', '{', '}', ',',
   'v', '[', '1', '.', '2', ']', '{', '}', ']']

/-- The tail of `semiPath` / `commaPath` after the first separator. -/
def sepSuffix : List Char :=
  ['e', '[', '1', '.', '1', ']', '[', '1', '.', '1', ',', '1', '.', '2', ']', '{', '}', ',',
   'v', '[', '1', '.', '2', ']', '{', '}', ']']

/-- A valid path literal (the null sentinel) with one trailing byte. -/
def trailingNull : List Char := nullElementValue ++ ['!']

/-- A bracketed path whose single element is malformed. -/
def malformedElemPath : List Char := ['[', 'x', ']']

/-- Decoded data of the first vertex of `commaPath`. -/
def vElemData : EntityData := ⟨.vertex ⟨⟨1, 1⟩, ['v']⟩, ['{', '}']⟩

/-- Decoded data of the edge of `commaPath`. -/
def eElemData : EntityData := ⟨.edge ⟨⟨1, 1⟩, ['e'], ⟨1, 1⟩, ⟨1, 2⟩⟩, ['{', '}']⟩

/-- Decoded data of the last vertex of `commaPath`. -/
def v2ElemData : EntityData := ⟨.vertex ⟨⟨1, 2⟩, ['v']⟩, ['{', '}']⟩

/-- The element sequence `readPath` builds for `commaPath` (and for
`semiPath`). -/
def pathElems3 : List PathElem :=
  [.entityPtr (some vElemData), .entityPtr (some eElemData), .entityPtr (some v2ElemData)]

/-- The lexer-invocation trace for `commaPath` (and `semiPath`). -/
def pathTrace3 : List (Nat × LexKind) := [(1, .vertex), (10, .edge), (28, .vertex)]

/-- The expected kind sequence of `readPath`'s loop: starting with `k1`
and swapping on each element, as the loop swaps `read, readNext`. -/
def altK : LexKind → LexKind → Nat → List LexKind
  | _, _, 0 => []
  | k1, k2, n + 1 => k1 :: altK k2 k1 n

theorem altK_length (k1 k2 : LexKind) : ∀ m, (altK k1 k2 m).length = m := by
  intro m
  induction m generalizing k1 k2 with
  | zero => rfl
  | succ n ih => simp [altK, ih]

theorem altK_get : ∀ (m i : Nat) (k1 k2 : LexKind) (h : i < (altK k1 k2 m).length),
    (altK k1 k2 m).get ⟨i, h⟩ = if i % 2 = 0 then k1 else k2 := by
  intro m
  induction m with
  | zero => intro i k1 k2 h; simp [altK] at h
  | succ n ih =>
    intro i k1 k2 h
    match i with
    | 0 => simp [altK]
    | j + 1 =>
      have h' : j < (altK k2 k1 n).length := by
        simpa [altK] using h
      have := ih j k2 k1 h'
      simp only [altK, List.get_cons_succ, this]
      rcases Nat.mod_two_eq_zero_or_one j with hj | hj <;>
        simp [Nat.add_mod, hj]

theorem altK_countP_edge : ∀ m,
    (altK LexKind.vertex LexKind.edge m).countP (· == LexKind.edge) = m / 2 ∧
    (altK LexKind.edge LexKind.vertex m).countP (· == LexKind.edge) = (m + 1) / 2 := by
  intro m
  induction m with
  | zero => simp [altK]
  | succ n ih =>
    constructor
    · simp only [altK, List.countP_cons]
      simpa using ih.2
    · simp only [altK, List.countP_cons]
      have h2 : (n + 1 + 1) / 2 = n / 2 + 1 := by omega
      simp [ih.1, h2]

theorem altK_countP_vertex : ∀ m,
    (altK LexKind.vertex LexKind.edge m).countP (· == LexKind.vertex) = (m + 1) / 2 ∧
    (altK LexKind.edge LexKind.vertex m).countP (· == LexKind.vertex) = m / 2 := by
  intro m
  induction m with
  | zero => simp [altK]
  | succ n ih =>
    constructor
    · simp only [altK, List.countP_cons]
      have h2 : (n + 1 + 1) / 2 = n / 2 + 1 := by omega
      simp [ih.2, h2]
    · simp only [altK, List.countP_cons]
      simpa using ih.1

/-- Master description of a successful run of `readPath`'s loop: it
appends one `ds` element per lexer invocation; kinds alternate starting
with the installed `read` lexer; every appended element is the untyped
nil or a non-nil entity pointer; and the first invocation happens at
the current position (no separator skipped) when `ds` starts empty, one
byte further otherwise. -/
theorem pathLoop_ok_spec :
    ∀ (fuel : Nat) (rv re : PathLexer) (rest : List Char) (adv : Nat)
      (ds : List PathElem) (tr : List (Nat × LexKind)) (a : Nat)
      (ds2 : List PathElem) (tr2 : List (Nat × LexKind)),
      pathLoop rv re rest adv ds tr none fuel = .ok a ds2 tr2 →
      ∃ dds dtr,
        ds2 = ds ++ dds ∧ tr2 = tr ++ dtr ∧ dds.length = dtr.length ∧
        dtr.map Prod.snd = altK rv.kind re.kind dtr.length ∧
        (∀ x ∈ dds, x = PathElem.nilInterface ∨ ∃ dd, x = PathElem.entityPtr (some dd)) ∧
        (∀ p, dtr.head? = some p → p.1 = if ds.isEmpty then adv else adv + 1) := by
  intro fuel
  induction fuel with
  | zero => intro rv re rest adv ds tr a ds2 tr2 h; simp [pathLoop] at h
  | succ n ih =>
    intro rv re rest adv ds tr a ds2 tr2 h
    match rest with
    | [] => simp [pathLoop] at h
    | c :: rest2 =>
      by_cases hc : c = ']'
      · refine ⟨[], [], ?_⟩
        simp only [pathLoop, hc, if_pos rfl] at h
        cases h
        simp [altK]
      · simp only [pathLoop, if_neg hc] at h
        obtain ⟨dds2, dtr2, h1, h2, h3, h4, h5, _⟩ :=
          ih re rv _ _ _ _ _ _ _ h
        refine ⟨pathElemOf ((rv.fn (if ds.isEmpty then c :: rest2 else rest2)).2.1) :: dds2,
                ((if ds.isEmpty then adv else adv + 1), rv.kind) :: dtr2, ?_, ?_, ?_, ?_, ?_, ?_⟩
        · simpa using h1
        · simpa using h2
        · simp [h3]
        · simp only [List.map_cons, List.length_cons, altK, h4]
        · intro x hx
          rcases List.mem_cons.mp hx with hx | hx
          · subst hx
            cases hd : (rv.fn (if ds.isEmpty then c :: rest2 else rest2)).2.1 with
            | none => left; simp [pathElemOf, hd]
            | some dd => right; exact ⟨dd, by simp [pathElemOf, hd]⟩
          · exact h5 x hx
        · intro p hp
          simp only [List.head?_cons, Option.some.injEq] at hp
          subst hp
          rfl

/-- A `SavePath` implementation that always succeeds (used to evaluate
`ScanPath` at concrete inputs). -/
def trivSaver : Bool → List PathElem → Option Unit := fun _ _ => none

/-- An element scan that always fails (used to evaluate
`basicSavePath` at concrete inputs). -/
def failingScan : PathElem → Option Unit := fun _ => some ()

/-- Claim C1: for the byte-buffer source equal to the null sentinel
literal `NULL`, the source delivers `SavePath(true, nil)` - not the
`SavePath(false, nil)` the claim (and the `PathSaver` documentation)
require: `readPath` recognizes the sentinel with a nil element slice
and nil error, and `ScanPath` then unconditionally delivers
`valid = true`, making the null path indistinguishable from the empty
path `[]`. -/
theorem scanPath_null_sentinel_delivers_valid_true {E : Type}
    (saver : Bool → List PathElem → Option E) :
    ScanPath (.bytes nullElementValue) saver
      = ([PathEv.savePath true []], .ret ((saver true []).map ScanErr.fromSaver)) := rfl

/-- Claim C2: the element-lexer error is swallowed by `readPath`: on
`[x]` the vertex lexer fails on the element `x]`, yet `readPath`
returns a nil error and appends two placeholder elements, because the
loop tests the enclosing (always-nil) `err` instead of the fresh lexer
error `r`. -/
theorem readPath_swallows_element_lexer_error :
    readVertexElement ['x', ']'] = (0, none, some LexErr.malformedEntity)
    ∧ readPath malformedElemPath
        = .ok 3 [PathElem.nilInterface, PathElem.nilInterface]
            [(1, LexKind.vertex), (2, LexKind.edge)] := by
  exact ⟨by decide, by decide⟩

/-- Claim C7: on the one-byte input `[` (a bracketed path with no
closing bracket), `readPath`'s loop condition reads `b[1]`, which is
out of range: the call ends in a Go runtime panic, not an error
return. -/
theorem scanPath_unclosed_bracket_panics :
    readPath ['['] = .panicOOB []
    ∧ ScanPath (.bytes ['[']) trivSaver = ([], .panicked) := by
  exact ⟨by decide, by decide⟩

/-- Claim C8: `BasicPath.SavePath` discards the error of the final
vertex scan: with a single-element sequence whose vertex scan fails,
it still returns a nil error. -/
theorem basicSavePath_discards_final_vertex_error :
    failingScan PathElem.nilInterface = some ()
    ∧ basicSavePath failingScan failingScan true [PathElem.nilInterface] = .ret none := by
  exact ⟨by decide, by decide⟩

/-- Claim C9: for a nil source, `ScanEntity` performs exactly the call
`SaveEntity(false, nil)` and `ScanPath` performs exactly the call
`SavePath(false, nil)`, each returning the consumer's result, with no
lexer invocation and no metadata or elements delivered. -/
theorem scan_null_source_saves_invalid {E F : Type} (c : EntityConsumer E)
    (saver : Bool → List PathElem → Option F) :
    ScanEntity .null c
      = ([EEv.saveEntityEv false none], .ret ((c.saveEntity false none).map EScanErr.fromConsumer))
    ∧ ScanPath .null saver
      = ([PathEv.savePath false []], .ret ((saver false []).map ScanErr.fromSaver)) :=
  ⟨rfl, rfl⟩

/-- Claim C4: for a successfully lexed entity, `saveEntityData` calls
`SaveEntity(true, core)` first; if that errors, nothing else is
delivered and the error is returned; otherwise the properties are
delivered via `SaveProperties` exactly when the consumer implements
`PropertiesSaver`, else via the structural `json.Unmarshal` into the
consumer, and the property step's result is returned unchanged. -/
theorem saveEntityData_dispatch_order {E : Type} (c : EntityConsumer E) (dd : EntityData) :
    (saveEntityData (some dd) c).1.head? = some (.saveEntityEv true (some dd.core))
    ∧ (∀ e, c.saveEntity true (some dd.core) = some e →
        saveEntityData (some dd) c
          = ([.saveEntityEv true (some dd.core)], .ret (some (.fromConsumer e))))
    ∧ (∀ f, c.saveEntity true (some dd.core) = none → c.saveProperties = some f →
        saveEntityData (some dd) c
          = ([.saveEntityEv true (some dd.core), .savePropsEv dd.properties],
             .ret ((f dd.properties).map .fromConsumer)))
    ∧ (c.saveEntity true (some dd.core) = none → c.saveProperties = none →
        saveEntityData (some dd) c
          = ([.saveEntityEv true (some dd.core), .unmarshalEv dd.properties],
             .ret ((c.unmarshal dd.properties).map .fromConsumer))) := by
  refine ⟨?_, ?_, ?_, ?_⟩
  · simp only [saveEntityData]
    rcases hse : c.saveEntity true (some dd.core) with _ | e
    · rcases hsp : c.saveProperties with _ | f <;> simp
    · simp
  · intro e he
    simp only [saveEntityData, he]
  · intro f h1 h2
    simp only [saveEntityData, h1, h2]
  · intro h1 h2
    simp only [saveEntityData, h1, h2]

/-- A consumer over `Unit` errors whose `SaveEntity` succeeds and that
implements `PropertiesSaver` via `propFnW`. -/
def propFnW : List Char → Option Unit := fun _ => none

/-- A concrete consumer used to exercise `saveEntityData`. -/
def consumerW : EntityConsumer Unit :=
  { readEntity := fun _ => (none, none)
    saveEntity := fun _ _ => none
    saveProperties := some propFnW
    unmarshal := fun _ => none }

/-- Witness for `saveEntityData_dispatch_order` at a concrete consumer
and entity datum. -/
theorem saveEntityData_dispatch_order_witness :
    consumerW.saveEntity true (some vElemData.core) = none
    ∧ consumerW.saveProperties = some propFnW
    ∧ saveEntityData (some vElemData) consumerW
        = ([.saveEntityEv true (some vElemData.core), .savePropsEv vElemData.properties],
           .ret ((propFnW vElemData.properties).map .fromConsumer)) :=
  ⟨rfl, rfl, (saveEntityData_dispatch_order consumerW vElemData).2.2.1 propFnW rfl rfl⟩

/-- Claim C5: when `readPath` recognizes a literal that does not extend
to the end of the buffer, `ScanPath` returns the trailing-garbage
error and performs no `SavePath` call. -/
theorem scanPath_rejects_trailing_bytes {E : Type}
    (saver : Bool → List PathElem → Option E) (b : List Char)
    (a : Nat) (ds : List PathElem) (tr : List (Nat × LexKind))
    (h : readPath b = .ok a ds tr) (hne : a ≠ b.length) :
    ScanPath (.bytes b) saver
      = (tr.map (fun p => PathEv.lex p.1 p.2), .ret (some .badRepr))
    ∧ ∀ v ds0, PathEv.savePath v ds0 ∉ (ScanPath (.bytes b) saver).1 := by
  have hb : b ≠ [] := by
    intro hnil
    rw [hnil] at h
    simp [readPath, List.isPrefixOf, nullElementValue] at h
  have hlen : ¬ b.length < 1 := by
    cases b with
    | nil => exact absurd rfl hb
    | cons x xs => simp
  constructor
  · simp only [ScanPath, if_neg hlen, h, if_pos hne]
  · intro v ds0 hmem
    simp only [ScanPath, if_neg hlen, h, if_pos hne, List.mem_map] at hmem
    obtain ⟨p, _, hp⟩ := hmem
    exact PathEv.noConfusion hp

/-- Witness for `scanPath_rejects_trailing_bytes`: the null sentinel
followed by one extra byte. -/
theorem scanPath_rejects_trailing_bytes_witness :
    readPath trailingNull = .ok 4 [] []
    ∧ (4 ≠ trailingNull.length)
    ∧ ScanPath (.bytes trailingNull) trivSaver = ([], .ret (some .badRepr)) :=
  ⟨by decide, by decide,
   (scanPath_rejects_trailing_bytes trivSaver trailingNull 4 [] []
     (by decide) (by decide)).1⟩

/-- Counterexample to claim C3: a path literal whose first separator
byte is `;` instead of `,` is not rejected - `readPath` accepts it and
parses all three elements, because the loop skips the separator byte
without inspecting it. -/
theorem readPath_accepts_semicolon_separator :
    semiPath.get? 9 = some ';' ∧ (';' ≠ ',')
    ∧ readPath semiPath = .ok 37 pathElems3 pathTrace3 := by
  exact ⟨by decide, by decide, by decide⟩

/-- Claim C3 (amended): before the first element no separator byte is
consumed (the first lexer invocation happens at position 1, right
after `[`); before every subsequent element exactly one byte is
consumed unconditionally - the loop's behavior does not depend on
which non-`]` byte stands at the separator position, so a non-comma
there is skipped, not rejected. -/
theorem pathLoop_skips_separator_unconditionally :
    (∀ (rv re : PathLexer) (c1 c2 : Char) (suf : List Char) (adv : Nat)
       (ds : List PathElem) (tr : List (Nat × LexKind)) (errAcc : Option PathErr)
       (fuel : Nat), ds ≠ [] → c1 ≠ ']' → c2 ≠ ']' →
       pathLoop rv re (c1 :: suf) adv ds tr errAcc fuel
         = pathLoop rv re (c2 :: suf) adv ds tr errAcc fuel)
    ∧ (∀ (b : List Char) (a : Nat) (ds : List PathElem) (tr : List (Nat × LexKind)),
        readPath b = .ok a ds tr → ∀ p, tr.head? = some p → p.1 = 1) := by
  constructor
  · intro rv re c1 c2 suf adv ds tr errAcc fuel hds hc1 hc2
    cases fuel with
    | zero => rfl
    | succ n =>
      obtain ⟨x, xs, rfl⟩ := List.exists_cons_of_ne_nil hds
      simp [pathLoop, if_neg hc1, if_neg hc2]
  · intro b a ds tr h p hp
    unfold readPath at h
    split at h
    · cases h
      simp at hp
    · split at h
      · simp at h
      · split at h
        · obtain ⟨dds, dtr, h1, h2, _, _, _, h6⟩ :=
            pathLoop_ok_spec _ _ _ _ _ _ _ _ _ _ h
          rw [h2] at hp
          simp only [List.nil_append] at hp
          have := h6 p hp
          simpa using this
        · simp at h

/-- Witness for `pathLoop_skips_separator_unconditionally` at the
concrete separator pair `;` / `,` and at `semiPath`. -/
theorem pathLoop_skips_separator_unconditionally_witness :
    ([PathElem.entityPtr (some vElemData)] ≠ ([] : List PathElem))
    ∧ (';' ≠ ']') ∧ (',' ≠ ']')
    ∧ pathLoop vertexLexer edgeLexer (';' :: sepSuffix) 9
        [.entityPtr (some vElemData)] [(1, .vertex)] none 30
        = pathLoop vertexLexer edgeLexer (',' :: sepSuffix) 9
            [.entityPtr (some vElemData)] [(1, .vertex)] none 30
    ∧ readPath semiPath = .ok 37 pathElems3 pathTrace3
    ∧ pathTrace3.head? = some (1, LexKind.vertex)
    ∧ (1, LexKind.vertex).1 = 1 :=
  ⟨by decide, by decide, by decide,
   pathLoop_skips_separator_unconditionally.1 vertexLexer edgeLexer ';' ','
     sepSuffix 9 [.entityPtr (some vElemData)] [(1, .vertex)] none 30
     (by decide) (by decide) (by decide),
   by decide, by decide,
   pathLoop_skips_separator_unconditionally.2 semiPath 37 pathElems3 pathTrace3
     (by decide) (1, LexKind.vertex) (by decide)⟩

theorem saveEntityData_some_ne_panic {E : Type} (dd : EntityData) (c : EntityConsumer E) :
    (saveEntityData (some dd) c).2 ≠ ERes.panicNilData := by
  simp only [saveEntityData]
  rcases hse : c.saveEntity true (some dd.core) with _ | e
  · rcases hsp : c.saveProperties with _ | f <;> simp
  · simp

/-- Claim C10: every element `readPath` delivers is either the untyped
nil interface value or a non-nil `*entityData`; re-submitting such an
element to `ScanEntity` takes the nil branch or the already-parsed
branch and never reaches the nil-entity-data panic of
`saveEntityData`. -/
theorem readPath_elements_nil_or_parsed :
    ∀ (b : List Char) (a : Nat) (ds : List PathElem) (tr : List (Nat × LexKind)),
      readPath b = .ok a ds tr → ∀ x ∈ ds,
      (x = PathElem.nilInterface ∨ ∃ dd, x = PathElem.entityPtr (some dd))
      ∧ ∀ (E : Type) (c : EntityConsumer E),
          (ScanEntity x.toSrc c).2 ≠ ERes.panicNilData
          ∧ (x = PathElem.nilInterface →
              ScanEntity x.toSrc c
                = ([EEv.saveEntityEv false none],
                   .ret ((c.saveEntity false none).map EScanErr.fromConsumer)))
          ∧ (∀ dd, x = PathElem.entityPtr (some dd) →
              ScanEntity x.toSrc c = saveEntityData (some dd) c) := by
  intro b a ds tr h x hx
  have hgood : x = PathElem.nilInterface ∨ ∃ dd, x = PathElem.entityPtr (some dd) := by
    unfold readPath at h
    split at h
    · cases h
      simp at hx
    · split at h
      · simp at h
      · split at h
        · obtain ⟨dds, dtr, h1, _, _, _, h5, _⟩ :=
            pathLoop_ok_spec _ _ _ _ _ _ _ _ _ _ h
          rw [h1] at hx
          simp only [List.nil_append] at hx
          exact h5 x hx
        · simp at h
  refine ⟨hgood, ?_⟩
  intro E c
  rcases hgood with hnil | ⟨dd, hdd⟩
  · subst hnil
    refine ⟨by simp [PathElem.toSrc, ScanEntity], fun _ => rfl, ?_⟩
    intro dd hcontra
    exact PathElem.noConfusion hcontra
  · subst hdd
    have heq : ∀ dd2, (PathElem.entityPtr (some dd2)).toSrc = EntitySrc.entityPtr (some dd2) :=
      fun _ => rfl
    refine ⟨?_, ?_, ?_⟩
    · rw [heq]
      show (saveEntityData (some dd) c).2 ≠ ERes.panicNilData
      exact saveEntityData_some_ne_panic dd c
    · intro hcontra
      exact PathElem.noConfusion hcontra
    · intro dd2 hdd2
      injection hdd2 with h1
      injection h1 with h2
      subst h2
      rfl

/-- Witness for `readPath_elements_nil_or_parsed` at the single-vertex
path literal. -/
theorem readPath_elements_nil_or_parsed_witness :
    readPath singleVertexPath = .ok 10 [.entityPtr (some vElemData)] [(1, LexKind.vertex)]
    ∧ (PathElem.entityPtr (some vElemData) ∈ [PathElem.entityPtr (some vElemData)])
    ∧ (PathElem.entityPtr (some vElemData) = PathElem.nilInterface
        ∨ ∃ dd, PathElem.entityPtr (some vElemData) = PathElem.entityPtr (some dd)) :=
  ⟨by decide, by decide,
   (readPath_elements_nil_or_parsed singleVertexPath 10
     [.entityPtr (some vElemData)] [(1, LexKind.vertex)] (by decide)
     (PathElem.entityPtr (some vElemData)) (by decide)).1⟩

/-- Claim C6: on every successful `readPath` run, one element is
appended per lexer invocation; the lexer at element index `i` is the
vertex lexer for even `i` and the edge lexer for odd `i` (alternating,
starting with vertex), so a sequence of `2k+1` elements contains `k`
edge reads and `k+1` vertex reads; and the empty path `[]` yields a
zero-length element sequence that `ScanPath` delivers with
`valid = true`. -/
theorem readPath_alternates_vertex_edge :
    (∀ (b : List Char) (a : Nat) (ds : List PathElem) (tr : List (Nat × LexKind)),
      readPath b = .ok a ds tr →
      ds.length = tr.length
      ∧ (∀ (i : Nat) (h : i < tr.length),
          (tr.get ⟨i, h⟩).2 = if i % 2 = 0 then LexKind.vertex else LexKind.edge)
      ∧ (∀ k, tr.length = 2 * k + 1 →
          tr.countP (fun p => p.2 == LexKind.edge) = k
          ∧ tr.countP (fun p => p.2 == LexKind.vertex) = k + 1))
    ∧ readPath ['[', ']'] = .ok 2 [] []
    ∧ (∀ (E : Type) (saver : Bool → List PathElem → Option E),
        ScanPath (.bytes ['[', ']']) saver
          = ([PathEv.savePath true []], .ret ((saver true []).map ScanErr.fromSaver))) := by
  refine ⟨?_, by decide, fun E saver => rfl⟩
  intro b a ds tr h
  have hmain : ds.length = tr.length
      ∧ tr.map Prod.snd = altK LexKind.vertex LexKind.edge tr.length := by
    unfold readPath at h
    split at h
    · cases h
      simp [altK]
    · split at h
      · simp at h
      · split at h
        · obtain ⟨dds, dtr, h1, h2, h3, h4, _, _⟩ :=
            pathLoop_ok_spec _ _ _ _ _ _ _ _ _ _ h
          rw [h1, h2]
          simp only [List.nil_append]
          exact ⟨h3, h4⟩
        · simp at h
  refine ⟨hmain.1, ?_, ?_⟩
  · intro i hi
    have hlt3 : i < (altK LexKind.vertex LexKind.edge tr.length).length := by
      rw [altK_length]; exact hi
    calc (tr.get ⟨i, hi⟩).2
        = (tr.map Prod.snd).get ⟨i, by simpa using hi⟩ := by
          rw [List.get_map]
      _ = (altK LexKind.vertex LexKind.edge tr.length).get ⟨i, hlt3⟩ :=
          List.get_of_eq hmain.2 ⟨i, by simpa using hi⟩
      _ = if i % 2 = 0 then LexKind.vertex else LexKind.edge :=
          altK_get tr.length i LexKind.vertex LexKind.edge hlt3
  · intro k hk
    have hc : tr.countP (fun p => p.2 == LexKind.edge)
        = (tr.map Prod.snd).countP (· == LexKind.edge) := by
      rw [List.countP_map]
      rfl
    have hv : tr.countP (fun p => p.2 == LexKind.vertex)
        = (tr.map Prod.snd).countP (· == LexKind.vertex) := by
      rw [List.countP_map]
      rfl
    rw [hc, hv, hmain.2, hk]
    have he := (altK_countP_edge (2 * k + 1)).1
    have hve := (altK_countP_vertex (2 * k + 1)).1
    rw [he, hve]
    omega

/-- Witness for `readPath_alternates_vertex_edge` at the three-element
path literal. -/
theorem readPath_alternates_vertex_edge_witness :
    readPath commaPath = .ok 37 pathElems3 pathTrace3
    ∧ (pathElems3.length = pathTrace3.length
       ∧ (∀ (i : Nat) (h : i < pathTrace3.length),
           (pathTrace3.get ⟨i, h⟩).2 = if i % 2 = 0 then LexKind.vertex else LexKind.edge)
       ∧ (∀ k, pathTrace3.length = 2 * k + 1 →
           pathTrace3.countP (fun p => p.2 == LexKind.edge) = k
           ∧ pathTrace3.countP (fun p => p.2 == LexKind.vertex) = k + 1)) :=
  ⟨by decide,
   readPath_alternates_vertex_edge.1 commaPath 37 pathElems3 pathTrace3 (by decide)⟩
